import Mathlib

/-!
Shallow embedding of the `cloud/storage/openstack` adapter
(`openstack.go`).  The adapter wraps the gophercloud SDK; every SDK /
network interaction is modelled as an oracle argument so that the
adapter's own control flow is embedded faithfully while the remote
service stays abstract.  Machine integers carry no overflow-relevant
arithmetic here, so object sizes are `Int` (Go `int64`) and byte
contents are `List Nat`.
-/

/-- Error kinds of the upspin `errors` package that this adapter uses.
`IOError` embeds Go `errors.IO`. -/
inductive Kind where
  | NotExist
  | Permission
  | Invalid
  | Internal
  | IOError
deriving DecidableEq, Repr

/-- An adapter error: either a wrapped `errors.E(op, kind, msg)` or the
sentinel `upspin.ErrNotSupported` returned bare by `LinkBase`. -/
inductive AdapterErr where
  | e (op : String) (kind : Kind) (msg : String)
  | notSupported
deriving DecidableEq, Repr

/-- One object of a Swift container listing (`objects.Object`): a name
and a byte size (`o.Name`, `o.Bytes`). -/
structure SwiftObject where
  name : String
  bytes : Int
deriving DecidableEq, Repr

/-- `upspin.ListRefsItem`: a reference plus its size. -/
structure ListRefsItem where
  ref : String
  size : Int
deriving DecidableEq, Repr

/-- The gophercloud object-storage service client
(`gophercloud.ServiceClient`), reduced to what the adapter reads from
it: the endpoint used by `ServiceURL`. -/
structure ServiceClient where
  endpoint : String
deriving DecidableEq, Repr

/-- The authenticated provider client returned by
`openstack.AuthenticatedClient`, abstract. -/
structure ProviderClient where
  id : Nat
deriving DecidableEq, Repr

/-- The adapter state (`type openstackStorage struct`): a client handle
and the container name. -/
structure openstackStorage where
  client : ServiceClient
  container : String
deriving DecidableEq, Repr

/-- `gophercloud.AuthOptions` as filled in by `New`. -/
structure AuthOptions where
  identityEndpoint : String
  username : String
  password : String
  tenantName : String
  allowReauth : Bool
deriving DecidableEq, Repr

def storageName : String := "OpenStack"

def openstackRegion : String := "openstackRegion"

def openstackContainer : String := "openstackContainer"

def openstackAuthURL : String := "openstackAuthURL"

def openstackTenantName : String := "privateOpenstackTenantName"

def openstackUsername : String := "privateOpenstackUsername"

def openstackPassword : String := "privateOpenstackPassword"

/-- `requiredOpts` from the source, in source order. -/
def requiredOpts : List String :=
  [openstackRegion, openstackContainer, openstackAuthURL,
   openstackTenantName, openstackUsername, openstackPassword]

/-- The Swift read-ACL sentinel granting anonymous read. -/
def containerPublicACL : String := ".r:*"

/-- Network interactions performed by `New`, logged so that "no network
call before validation" is expressible. `clientCall` is the
`openstack.NewObjectStorageV1` step. -/
inductive NetCall where
  | authCall
  | clientCall
deriving DecidableEq, Repr

/-- Oracle for the two gophercloud construction steps used by `New`:
`openstack.AuthenticatedClient` and `openstack.NewObjectStorageV1`
(the latter takes the region). -/
structure NewOracle where
  authenticate : AuthOptions → Except String ProviderClient
  newObjectStorageV1 : ProviderClient → String → Except String ServiceClient

def newOp : String := "cloud/storage/openstack.New"

/-- Embedding of `New`: validate the six required options in order,
then authenticate, then build the object-storage client.  The second
component logs the network calls actually issued, in order. -/
def New (opts : String → Option String) (o : NewOracle) :
    Except AdapterErr openstackStorage × List NetCall :=
  match requiredOpts.find? (fun k => (opts k).isNone) with
  | some k =>
      (.error (.e newOp .Invalid ("\"" ++ k ++ "\" option is required")), [])
  | none =>
      let authOpts : AuthOptions :=
        { identityEndpoint := (opts openstackAuthURL).getD ""
          username := (opts openstackUsername).getD ""
          password := (opts openstackPassword).getD ""
          tenantName := (opts openstackTenantName).getD ""
          allowReauth := true }
      match o.authenticate authOpts with
      | .error msg =>
          (.error (.e newOp .Permission ("Could not authenticate: " ++ msg)),
           [.authCall])
      | .ok provider =>
          match o.newObjectStorageV1 provider ((opts openstackRegion).getD "") with
          | .error msg =>
              (.error (.e newOp .Invalid
                 ("Could not create object storage client: " ++ msg)),
               [.authCall, .clientCall])
          | .ok client =>
              (.ok { client := client,
                     container := (opts openstackContainer).getD "" },
               [.authCall, .clientCall])

/-- `client.ServiceURL(container)`: endpoint followed by the container
path segment. -/
def serviceURL (c : ServiceClient) (container : String) : String :=
  c.endpoint ++ container

/-- Container metadata header (`containers.GetHeader`), reduced to the
read-ACL list `h.Read`. -/
structure ContainerHeader where
  read : List String
deriving DecidableEq, Repr

def linkBaseOp : String := "cloud/storage/openstack.LinkBase"

/-- Embedding of `LinkBase`: `getMeta` is the oracle for
`containers.Get(...).Extract()` on the adapter's container. -/
def LinkBase (s : openstackStorage)
    (getMeta : String → Except String ContainerHeader) :
    Except AdapterErr String :=
  match getMeta s.container with
  | .error msg =>
      .error (.e linkBaseOp .Internal ("Unable to extract header: " ++ msg))
  | .ok h =>
      if containerPublicACL ∈ h.read then
        .ok (serviceURL s.client s.container ++ "/")
      else
        .error .notSupported

/-- Errors reported by the SDK on a download: either the typed
`gophercloud.ErrDefault404` or any other error. -/
inductive SDKError where
  | err404
  | other (msg : String)
deriving DecidableEq, Repr

def downloadOp : String := "cloud/storage/openstack.Download"

/-- Embedding of `Download`: `fetch` is the oracle for
`objects.Download(client, container, ref, nil).ExtractContent()`. -/
def Download (s : openstackStorage)
    (fetch : String → String → Except SDKError (List Nat)) (ref : String) :
    Except AdapterErr (List Nat) :=
  match fetch s.container ref with
  | .ok contents => .ok contents
  | .error .err404 =>
      .error (.e downloadOp .NotExist "object not found")
  | .error (.other msg) =>
      .error (.e downloadOp .IOError
        ("Unable to download ref " ++ ref ++ " from container " ++
         s.container ++ ": " ++ msg))

def putOp : String := "cloud/storage/openstack.Put"

/-- Embedding of `Put`: `create` is the oracle for
`objects.Create(client, container, ref, opts).Err`; `none` means the
SDK call succeeded. -/
def Put (s : openstackStorage)
    (create : String → String → List Nat → Option String)
    (ref : String) (contents : List Nat) : Option AdapterErr :=
  match create s.container ref contents with
  | some msg =>
      some (.e putOp .IOError
        ("Unable to upload ref " ++ ref ++ " to container " ++
         s.container ++ ": " ++ msg))
  | none => none

def deleteOp : String := "cloud/storage/openstack.Delete"

/-- Embedding of `Delete`: `del` is the oracle for
`objects.Delete(client, container, ref, nil).Err`. -/
def Delete (s : openstackStorage)
    (del : String → String → Option String) (ref : String) :
    Option AdapterErr :=
  match del s.container ref with
  | some msg =>
      some (.e deleteOp .IOError
        ("Unable to delete ref " ++ ref ++ " from container " ++
         s.container ++ ": " ++ msg))
  | none => none

/-- A page-fetch URL for the Swift container listing, as the adapter's
continuation token.  The adapter treats it as opaque; the model records
the marker position (`start`, the number of objects preceding the page)
and the `limit` query parameter carried by the URL. -/
structure SwiftURL where
  start : Nat
  limit : Nat
deriving DecidableEq, Repr

/-- Swift's default listing page size, used when the URL carries no
`limit` parameter (gophercloud omits a zero `Limit`). -/
def defaultListingLimit : Nat := 10000

/-- Effective page limit encoded in a listing URL built from `perPage`:
gophercloud omits the zero value, so the server default applies. -/
def effLimit (perPage : Nat) : Nat :=
  if perPage = 0 then defaultListingLimit else perPage

/-- Embedding of the `pager` method: an empty token (`none`) builds the
first-page URL via `objects.List` with `Limit: perPage`; a non-empty
token is used verbatim as the page-fetch URL. -/
def pagerURL (perPage : Nat) (url : Option SwiftURL) : SwiftURL :=
  match url with
  | none => { start := 0, limit := effLimit perPage }
  | some u => u

/-- What a fetched page yields once retrieved: the result of
`objects.ExtractInfo` on its body and the result of `NextPageURL`
(which on gophercloud's marker pager is always a full URL when it
succeeds). -/
structure PageContent where
  objsR : Except String (List SwiftObject)
  nextR : Except String SwiftURL
deriving Repr

/-- Outcome of fetching one page at a URL: a transport error, or a page
with its two extraction results. -/
inductive FetchOutcome where
  | fetchErr (msg : String)
  | page (c : PageContent)

/-- The state the `list` handler closure mutates: the named return
values `refs` and `nextToken` (`none` embeds the empty token). -/
structure ListState where
  refs : List ListRefsItem
  nextToken : Option SwiftURL
deriving DecidableEq, Repr

/-- The page handler passed to `EachPage` by `list`: extract the page's
objects and append them to `refs`, extract the next-page URL into
`nextToken`, and in all cases return `false` to stop pagination after
the first page. -/
def listHandler (st : ListState) (c : PageContent) :
    Bool × ListState × Option String :=
  match c.objsR with
  | .error msg => (false, st, some msg)
  | .ok objs =>
      let st2 := { st with
        refs := st.refs ++ objs.map (fun o => { ref := o.name, size := o.bytes }) }
      match c.nextR with
      | .error msg => (false, st2, some msg)
      | .ok u => (false, { st2 with nextToken := some u }, none)

/-- Embedding of gophercloud `pagination.Pager.EachPage`, instrumented
with a log of fetched URLs: fetch the page at the current URL, stop
with no handler call when it is empty (its `IsEmpty` parses the body,
so a body-extraction failure surfaces here), otherwise run the handler
and continue at `NextPageURL` only while the handler returns `true`.
The loop is bounded by explicit fuel; the adapter's handler stops after
one page, so one unit of fuel is never exceeded (proved below). -/
def eachPage (fetch : SwiftURL → FetchOutcome)
    (handler : ListState → PageContent → Bool × ListState × Option String) :
    Nat → SwiftURL → ListState → List SwiftURL →
    Option String × ListState × List SwiftURL
  | 0, _, st, log => (some "pagination ran out of fuel", st, log)
  | Nat.succ fuel, u, st, log =>
      match fetch u with
      | .fetchErr msg => (some msg, st, log ++ [u])
      | .page c =>
          match c.objsR with
          | .error msg => (some msg, st, log ++ [u])
          | .ok objs =>
              if objs.isEmpty then (none, st, log ++ [u])
              else
                match handler st c with
                | (_, st2, some msg) => (some msg, st2, log ++ [u])
                | (false, st2, none) => (none, st2, log ++ [u])
                | (true, st2, none) =>
                    match c.nextR with
                    | .error msg => (some msg, st2, log ++ [u])
                    | .ok u2 => eachPage fetch handler fuel u2 st2 (log ++ [u])

def listOpName : String := "cloud/storage/openstack.List"

/-- Embedding of the `list` method: build the pager from the token,
run `EachPage` with the one-page handler, and wrap any error with kind
`IO`.  Returns `(refs, nextToken, err, fetchedURLs)`; the last
component is the instrumentation log of pages actually fetched. -/
def listOp (fetch : SwiftURL → FetchOutcome) (url : Option SwiftURL)
    (perPage : Nat) (fuel : Nat) :
    List ListRefsItem × Option SwiftURL × Option AdapterErr × List SwiftURL :=
  match eachPage fetch listHandler fuel (pagerURL perPage url)
      { refs := [], nextToken := none } [] with
  | (some msg, st, log) =>
      (st.refs, st.nextToken,
       some (.e listOpName .IOError ("container: " ++ msg)), log)
  | (none, st, log) => (st.refs, st.nextToken, none, log)

/-- Embedding of the exported `List` method: `list` with no page-size
hint. -/
def ListOp (fetch : SwiftURL → FetchOutcome) (url : Option SwiftURL)
    (fuel : Nat) :
    List ListRefsItem × Option SwiftURL × Option AdapterErr × List SwiftURL :=
  listOp fetch url 0 fuel

/-- The item `list` builds from one listed object. -/
def toItem (o : SwiftObject) : ListRefsItem :=
  { ref := o.name, size := o.bytes }

/-- Model of the remote Swift container-listing endpoint over a fixed
container state: a fetch at a URL returns the objects after the marker,
capped by the URL's limit, and the marker-based next-page URL (same
query, marker advanced past the returned page), with no transport or
extraction failures. -/
def serverFetch (container : List SwiftObject) : SwiftURL → FetchOutcome :=
  fun u =>
    let page := (container.drop u.start).take u.limit
    .page { objsR := .ok page,
            nextR := .ok { start := u.start + page.length, limit := u.limit } }

/-- The test driver `getAllRefs`: call `list` repeatedly, feeding each
returned token verbatim into the next call, until the token is empty,
an error occurs, or `maxCalls` runs out.  Returns the concatenated
refs, the number of `list` calls made, the final token, and the final
error. -/
def getAllRefs (fetch : SwiftURL → FetchOutcome) (perPage : Nat) :
    Nat → Option SwiftURL →
    List ListRefsItem × Nat × Option SwiftURL × Option AdapterErr
  | 0, tok => ([], 0, tok, none)
  | Nat.succ maxCalls, tok =>
      match listOp fetch tok perPage 1 with
      | (refs, tok2, some err, _) => (refs, 1, tok2, some err)
      | (refs, none, none, _) => (refs, 1, none, none)
      | (refs, some u, none, _) =>
          let r := getAllRefs fetch perPage maxCalls (some u)
          (refs ++ r.1, r.2.1 + 1, r.2.2)

/-- Ceiling division on naturals, for the page-count bound. -/
def ceilDiv (n p : Nat) : Nat := (n + p - 1) / p

/-- State-threaded form of `Put`, mirroring the Go pointer receiver:
the method body contains no assignment to the receiver's fields. -/
def PutS (s : openstackStorage)
    (create : String → String → List Nat → Option String)
    (ref : String) (contents : List Nat) :
    Option AdapterErr × openstackStorage :=
  (Put s create ref contents, s)

/-- State-threaded form of `Download`. -/
def DownloadS (s : openstackStorage)
    (fetch : String → String → Except SDKError (List Nat)) (ref : String) :
    Except AdapterErr (List Nat) × openstackStorage :=
  (Download s fetch ref, s)

/-- State-threaded form of `Delete`. -/
def DeleteS (s : openstackStorage)
    (del : String → String → Option String) (ref : String) :
    Option AdapterErr × openstackStorage :=
  (Delete s del ref, s)

/-- State-threaded form of `LinkBase`. -/
def LinkBaseS (s : openstackStorage)
    (getMeta : String → Except String ContainerHeader) :
    Except AdapterErr String × openstackStorage :=
  (LinkBase s getMeta, s)

/-- State-threaded form of `List` (the receiver is only read to reach
the client and container used by the pager). -/
def ListS (s : openstackStorage) (fetch : SwiftURL → FetchOutcome)
    (url : Option SwiftURL) (fuel : Nat) :
    (List ListRefsItem × Option SwiftURL × Option AdapterErr × List SwiftURL)
      × openstackStorage :=
  (ListOp fetch url fuel, s)

/-- A concrete adapter instance for witnesses. -/
def exStore : openstackStorage :=
  { client := { endpoint := "http://swift/v1/AUTH_t/" },
    container := "upspin-test-container" }

/-- A concrete ten-object container for witnesses, mirroring the
paginated-listing test. -/
def exObjs : List SwiftObject :=
  [{ name := "ref0", bytes := 4 }, { name := "ref1", bytes := 4 },
   { name := "ref2", bytes := 4 }, { name := "ref3", bytes := 4 },
   { name := "ref4", bytes := 4 }, { name := "ref5", bytes := 4 },
   { name := "ref6", bytes := 4 }, { name := "ref7", bytes := 4 },
   { name := "ref8", bytes := 4 }, { name := "ref9", bytes := 4 }]

/-- A concrete construction oracle for witnesses where both
gophercloud steps succeed. -/
def exOracle : NewOracle :=
  { authenticate := fun _ => .ok { id := 1 },
    newObjectStorageV1 := fun _ _ => .ok { endpoint := "http://swift/v1/AUTH_t/" } }

/-- A configuration supplying every required option. -/
def exOptsFull : String → Option String := fun k =>
  if k ∈ requiredOpts then some "value" else none

/-- A configuration supplying no option at all. -/
def exOptsMissing : String → Option String := fun _ => none

/-- Container metadata with the public-read ACL sentinel. -/
def exMetaPub : String → Except String ContainerHeader :=
  fun _ => .ok { read := [".r:*"] }

/-- One-step characterization of `list`: with positive fuel the loop
runs exactly once, whatever the fetched page holds, because the handler
always stops pagination. -/
lemma listOp_spec (fetch : SwiftURL → FetchOutcome) (url : Option SwiftURL)
    (perPage n : Nat) :
    listOp fetch url perPage (n + 1) =
      match fetch (pagerURL perPage url) with
      | .fetchErr msg =>
          ([], none, some (.e listOpName .IOError ("container: " ++ msg)),
           [pagerURL perPage url])
      | .page c =>
          match c.objsR with
          | .error msg =>
              ([], none, some (.e listOpName .IOError ("container: " ++ msg)),
               [pagerURL perPage url])
          | .ok objs =>
              if objs.isEmpty then ([], none, none, [pagerURL perPage url])
              else
                match c.nextR with
                | .error msg =>
                    (objs.map toItem, none,
                     some (.e listOpName .IOError ("container: " ++ msg)),
                     [pagerURL perPage url])
                | .ok u2 =>
                    (objs.map toItem, some u2, none, [pagerURL perPage url]) := by
  rcases hf : fetch (pagerURL perPage url) with msg | ⟨objsR, nextR⟩
  · simp [listOp, eachPage, hf]
  · rcases objsR with msg | (_ | ⟨o, rest⟩) <;>
      rcases nextR with msg2 | u2 <;>
      simp [listOp, eachPage, listHandler, hf, toItem]

/-- `listOp_spec` at exactly one unit of fuel. -/
lemma listOp_spec1 (fetch : SwiftURL → FetchOutcome) (url : Option SwiftURL)
    (perPage : Nat) :
    listOp fetch url perPage 1 =
      match fetch (pagerURL perPage url) with
      | .fetchErr msg =>
          ([], none, some (.e listOpName .IOError ("container: " ++ msg)),
           [pagerURL perPage url])
      | .page c =>
          match c.objsR with
          | .error msg =>
              ([], none, some (.e listOpName .IOError ("container: " ++ msg)),
               [pagerURL perPage url])
          | .ok objs =>
              if objs.isEmpty then ([], none, none, [pagerURL perPage url])
              else
                match c.nextR with
                | .error msg =>
                    (objs.map toItem, none,
                     some (.e listOpName .IOError ("container: " ++ msg)),
                     [pagerURL perPage url])
                | .ok u2 =>
                    (objs.map toItem, some u2, none, [pagerURL perPage url]) :=
  listOp_spec fetch url perPage 0

/-- The instrumentation log of one `list` call is always the single
pager URL: exactly one page is fetched. -/
lemma listOp_log (fetch : SwiftURL → FetchOutcome) (url : Option SwiftURL)
    (perPage n : Nat) :
    (listOp fetch url perPage (n + 1)).2.2.2 = [pagerURL perPage url] := by
  rw [listOp_spec]
  rcases fetch (pagerURL perPage url) with msg | ⟨objsR, nextR⟩
  · rfl
  · rcases objsR with msg | (_ | ⟨o, rest⟩) <;> rcases nextR with m2 | u2 <;> simp

/-- Ceiling division of zero. -/
lemma ceilDiv_zero_num (p : Nat) : ceilDiv 0 p = 0 := by
  rcases Nat.eq_zero_or_pos p with h | h
  · subst h; rfl
  · unfold ceilDiv
    exact Nat.div_eq_of_lt (by omega)

/-- Ceiling division of a positive numerator, as floor of the
predecessor plus one. -/
lemma ceilDiv_succ_form (k p : Nat) (hk : 0 < k) (hp : 0 < p) :
    ceilDiv k p = (k - 1) / p + 1 := by
  unfold ceilDiv
  have h1 : k + p - 1 = k - 1 + p := by omega
  rw [h1, Nat.add_div_right _ hp]

/-- Peeling one page off a ceiling division. -/
lemma ceilDiv_step (k p : Nat) (hp : 0 < p) (hk : 0 < k) :
    ceilDiv k p = ceilDiv (k - p) p + 1 := by
  rcases le_or_lt k p with h | h
  · have h0 : k - p = 0 := by omega
    rw [h0, ceilDiv_zero_num, ceilDiv_succ_form k p hk hp,
      Nat.div_eq_of_lt (by omega)]
  · rw [ceilDiv_succ_form k p hk hp,
      ceilDiv_succ_form (k - p) p (by omega) hp]
    have h2 : k - 1 = k - p - 1 + p := by omega
    rw [h2, Nat.add_div_right _ hp]

/-- A `list` call against the server model when the marker is already
past the end: the page is empty, so the call returns no items, an empty
token and no error. -/
lemma listOp_server_empty (objs : List SwiftObject) (u : SwiftURL) (p : Nat)
    (h : objs.length ≤ u.start) :
    listOp (serverFetch objs) (some u) p 1 = ([], none, none, [u]) := by
  rw [listOp_spec1]
  have hdrop : objs.drop u.start = [] := List.drop_eq_nil_of_le h
  simp [serverFetch, pagerURL, hdrop]

/-- A `list` call against the server model on a non-empty page: the
returned items are exactly that page's objects and the token is the
marker-advanced URL of the subsequent page. -/
lemma listOp_server_page (objs : List SwiftObject) (u : SwiftURL) (p : Nat)
    (h : u.start < objs.length) (hl : 0 < u.limit) :
    listOp (serverFetch objs) (some u) p 1 =
      (((objs.drop u.start).take u.limit).map toItem,
       some { start := u.start + ((objs.drop u.start).take u.limit).length,
              limit := u.limit },
       none, [u]) := by
  rw [listOp_spec1]
  have hlen : ((objs.drop u.start).take u.limit).length
      = min u.limit (objs.length - u.start) := by
    rw [List.length_take, List.length_drop]
  have hpos : 0 < ((objs.drop u.start).take u.limit).length := by
    rw [hlen]; exact lt_min hl (by omega)
  have hne : ((objs.drop u.start).take u.limit) ≠ [] := by
    intro hnil
    rw [hnil] at hpos
    simp at hpos
  have hie : ((objs.drop u.start).take u.limit).isEmpty = false := by
    simp [List.isEmpty_iff, hne]
  simp [serverFetch, pagerURL, hie]

/-- Iterating the test driver against the server model from any marker
position: the calls collect exactly the remaining suffix of the
container listing and use one call per page plus one final empty-page
call. -/
lemma getAllRefs_server (objs : List SwiftObject) (p : Nat) (hp : 0 < p) :
    ∀ fuel start, ceilDiv (objs.length - start) p + 1 ≤ fuel →
      getAllRefs (serverFetch objs) p fuel (some { start := start, limit := p }) =
        ((objs.drop start).map toItem,
         ceilDiv (objs.length - start) p + 1, none, none) := by
  intro fuel
  induction fuel with
  | zero => intro start h; omega
  | succ n ih =>
      intro start h
      rcases Nat.lt_or_ge start objs.length with hlt | hge
      · have hk : 0 < objs.length - start := by omega
        have hcall := listOp_server_page objs ⟨start, p⟩ p hlt hp
        have hplen : ((objs.drop start).take p).length
            = min p (objs.length - start) := by
          rw [List.length_take, List.length_drop]
        have hkey : objs.length - (start + ((objs.drop start).take p).length)
            = objs.length - start - p := by
          rw [hplen]
          rcases le_total p (objs.length - start) with h1 | h1
          · rw [min_eq_left h1]; omega
          · rw [min_eq_right h1]; omega
        have hstep : ceilDiv (objs.length - start) p
            = ceilDiv (objs.length - start - p) p + 1 :=
          ceilDiv_step _ p hp hk
        have hfuel2 : ceilDiv (objs.length -
            (start + ((objs.drop start).take p).length)) p + 1 ≤ n := by
          rw [hkey]; omega
        have ihapp := ih (start + ((objs.drop start).take p).length) hfuel2
        have h1 : (objs.drop start).drop ((objs.drop start).take p).length
            = (objs.drop start).drop p := by
          rw [List.length_take]
          rcases le_total p (objs.drop start).length with h2 | h2
          · rw [min_eq_left h2]
          · rw [min_eq_right h2, List.drop_eq_nil_of_le h2,
              List.drop_eq_nil_of_le (le_refl _)]
        have hsplit : (objs.drop start).take p
              ++ objs.drop (start + ((objs.drop start).take p).length)
            = objs.drop start := by
          rw [← List.drop_drop, h1]
          exact List.take_append_drop p (objs.drop start)
        simp only [getAllRefs, hcall, ihapp]
        refine Prod.ext ?_ (Prod.ext ?_ rfl)
        · show ((objs.drop start).take p).map toItem
              ++ (objs.drop (start + ((objs.drop start).take p).length)).map toItem
            = (objs.drop start).map toItem
          rw [← List.map_append, hsplit]
        · show ceilDiv (objs.length -
              (start + ((objs.drop start).take p).length)) p + 1 + 1
            = ceilDiv (objs.length - start) p + 1
          rw [hkey]
          omega
      · have hcall := listOp_server_empty objs ⟨start, p⟩ p hge
        have hsub : objs.length - start = 0 := by omega
        have hdrop : objs.drop start = [] := List.drop_eq_nil_of_le hge
        simp [getAllRefs, hcall, hsub, ceilDiv_zero_num, hdrop]

/-- With a positive page size, a driver run started from the empty
token coincides with one started from the explicit first-page URL. -/
lemma getAllRefs_none (fetch : SwiftURL → FetchOutcome) (p n : Nat)
    (hp : p ≠ 0) :
    getAllRefs fetch p (n + 1) none =
      getAllRefs fetch p (n + 1) (some { start := 0, limit := p }) := by
  have h2 : listOp fetch none p 1
      = listOp fetch (some { start := 0, limit := p }) p 1 := by
    unfold listOp
    simp [pagerURL, effLimit, hp]
  simp only [getAllRefs, h2]

/-- Claim C1: a `List` call with a continuation token fetches exactly
one page from the remote store (the instrumentation log is the single
pager URL), returns only that page's objects as items, and returns as
continuation token the next-page URL extracted from that page (empty
when the page is empty or the next-URL extraction fails); it never
iterates to a second page within one call. -/
theorem openstack_C1_single_page (fetch : SwiftURL → FetchOutcome)
    (url : Option SwiftURL) (perPage fuel : Nat) (hfuel : 0 < fuel) :
    (listOp fetch url perPage fuel).2.2.2 = [pagerURL perPage url] ∧
    ∀ c objs, fetch (pagerURL perPage url) = .page c → c.objsR = .ok objs →
      (listOp fetch url perPage fuel).1 = objs.map toItem ∧
      (objs = [] → (listOp fetch url perPage fuel).2.1 = none) ∧
      (∀ u2, objs ≠ [] → c.nextR = .ok u2 →
        (listOp fetch url perPage fuel).2.1 = some u2) ∧
      (∀ msg, c.nextR = .error msg →
        (listOp fetch url perPage fuel).2.1 = none) := by
  obtain ⟨n, rfl⟩ := Nat.exists_eq_succ_of_ne_zero (Nat.pos_iff_ne_zero.mp hfuel)
  refine ⟨listOp_log fetch url perPage n, ?_⟩
  intro c objs hf hobjs
  refine ⟨?_, ?_, ?_, ?_⟩
  · rw [listOp_spec]
    simp only [hf, hobjs]
    rcases objs with _ | ⟨o, rest⟩
    · simp
    · rcases hnr : c.nextR with msg | u2 <;> simp [hnr, toItem]
  · intro hnil
    subst hnil
    rw [listOp_spec]
    simp [hf, hobjs]
  · intro u2 hne hnr
    rw [listOp_spec]
    simp only [hf, hobjs, hnr]
    rcases objs with _ | ⟨o, rest⟩
    · exact absurd rfl hne
    · simp
  · intro msg hnr
    rw [listOp_spec]
    simp only [hf, hobjs, hnr]
    rcases objs with _ | ⟨o, rest⟩ <;> simp

theorem openstack_C1_single_page_witness :
    (listOp (serverFetch exObjs) (some { start := 0, limit := 3 }) 3 1).1
        = ((exObjs.drop 0).take 3).map toItem ∧
    (listOp (serverFetch exObjs) (some { start := 0, limit := 3 }) 3 1).2.2.2
        = [pagerURL 3 (some { start := 0, limit := 3 })] :=
  ⟨((openstack_C1_single_page (serverFetch exObjs)
        (some { start := 0, limit := 3 }) 3 1 (by decide)).2
      { objsR := .ok ((exObjs.drop 0).take 3),
        nextR := .ok { start := 0 + ((exObjs.drop 0).take 3).length,
                       limit := 3 } }
      ((exObjs.drop 0).take 3) rfl rfl).1,
   (openstack_C1_single_page (serverFetch exObjs)
      (some { start := 0, limit := 3 }) 3 1 (by decide)).1⟩

/-- Claim C6: a `List` call with the empty token issues a fresh
container-listing request (first-page URL, marker at the start, limit
as chosen by the adapter), and a call with a non-empty token fetches
exactly the URL carried by that token, uninterpreted and unmutated. -/
theorem openstack_C6_token_usage (fetch : SwiftURL → FetchOutcome)
    (perPage fuel : Nat) (u : SwiftURL) (hfuel : 0 < fuel) :
    (listOp fetch (some u) perPage fuel).2.2.2 = [u] ∧
    (listOp fetch none perPage fuel).2.2.2 =
      [{ start := 0, limit := effLimit perPage }] := by
  obtain ⟨n, rfl⟩ := Nat.exists_eq_succ_of_ne_zero (Nat.pos_iff_ne_zero.mp hfuel)
  exact ⟨listOp_log fetch (some u) perPage n, listOp_log fetch none perPage n⟩

theorem openstack_C6_token_usage_witness :
    (listOp (serverFetch exObjs) (some { start := 7, limit := 2 }) 0 1).2.2.2
        = [{ start := 7, limit := 2 }] ∧
    (listOp (serverFetch exObjs) none 0 1).2.2.2 =
      [{ start := 0, limit := effLimit 0 }] :=
  openstack_C6_token_usage (serverFetch exObjs) 0 1
    { start := 7, limit := 2 } (by decide)

/-- Claim C7: listing an empty container with an empty input token
returns an empty item sequence, an empty continuation token and no
error. -/
theorem openstack_C7_empty_listing (fuel : Nat) (hfuel : 0 < fuel) :
    ListOp (serverFetch []) none fuel =
      ([], none, none, [{ start := 0, limit := defaultListingLimit }]) := by
  obtain ⟨n, rfl⟩ := Nat.exists_eq_succ_of_ne_zero (Nat.pos_iff_ne_zero.mp hfuel)
  show listOp (serverFetch []) none 0 (n + 1) = _
  rw [listOp_spec]
  simp [serverFetch, pagerURL, effLimit, defaultListingLimit]

theorem openstack_C7_empty_listing_witness :
    ListOp (serverFetch []) none 1 =
      ([], none, none, [{ start := 0, limit := defaultListingLimit }]) :=
  openstack_C7_empty_listing 1 (by decide)

/-- Claim C10: when the next-page-URL extraction fails after the
page's objects have been extracted, `list` returns the accumulated
items of that page together with an error of kind `IO` and an empty
continuation token, instead of discarding the partial results. -/
theorem openstack_C10_partial_on_next_failure (fetch : SwiftURL → FetchOutcome)
    (url : Option SwiftURL) (perPage fuel : Nat) (c : PageContent)
    (o : SwiftObject) (rest : List SwiftObject) (msg : String)
    (hfuel : 0 < fuel)
    (hf : fetch (pagerURL perPage url) = .page c)
    (hobjs : c.objsR = .ok (o :: rest))
    (hnext : c.nextR = .error msg) :
    listOp fetch url perPage fuel =
      ((o :: rest).map toItem, none,
       some (.e listOpName .IOError ("container: " ++ msg)),
       [pagerURL perPage url]) := by
  obtain ⟨n, rfl⟩ := Nat.exists_eq_succ_of_ne_zero (Nat.pos_iff_ne_zero.mp hfuel)
  rw [listOp_spec]
  simp only [hf, hobjs]
  simp [hnext, toItem]

theorem openstack_C10_partial_on_next_failure_witness :
    listOp
        (fun _ => .page { objsR := .ok [{ name := "ref0", bytes := 4 }],
                          nextR := .error "bad next URL" })
        none 0 1 =
      ([{ ref := "ref0", size := 4 }], none,
       some (.e listOpName .IOError ("container: " ++ "bad next URL")),
       [pagerURL 0 none]) :=
  openstack_C10_partial_on_next_failure
    (fun _ => .page { objsR := .ok [{ name := "ref0", bytes := 4 }],
                      nextR := .error "bad next URL" })
    none 0 1
    { objsR := .ok [{ name := "ref0", bytes := 4 }],
      nextR := .error "bad next URL" }
    { name := "ref0", bytes := 4 } [] "bad next URL"
    (by decide) rfl rfl rfl

/-- Claim C5: enumerating a container of N items via repeated `list`
calls with page size p smaller than N, feeding each returned token
verbatim into the next call, takes exactly ceil(N/p)+1 calls, the last
call returning an empty token and no error, and the concatenation of
all pages equals the container's full listing (so its references are
exactly the N references, with no duplicates and no omissions). -/
theorem openstack_C5_full_enumeration (objs : List SwiftObject)
    (p fuel : Nat) (hp : 0 < p) (_hpN : p < objs.length)
    (hfuel : ceilDiv objs.length p + 1 ≤ fuel) :
    getAllRefs (serverFetch objs) p fuel none =
      (objs.map toItem, ceilDiv objs.length p + 1, none, none) ∧
    (getAllRefs (serverFetch objs) p fuel none).1.map ListRefsItem.ref
      = objs.map SwiftObject.name := by
  obtain ⟨n, rfl⟩ := Nat.exists_eq_succ_of_ne_zero (n := fuel) (by omega)
  have hmain : getAllRefs (serverFetch objs) p (n + 1) none =
      (objs.map toItem, ceilDiv objs.length p + 1, none, none) := by
    rw [getAllRefs_none _ _ _ (by omega)]
    have h0 := getAllRefs_server objs p hp (n + 1) 0 (by simpa using hfuel)
    simpa using h0
  refine ⟨hmain, ?_⟩
  rw [hmain]
  simp [toItem, List.map_map, Function.comp]

theorem openstack_C5_full_enumeration_witness :
    getAllRefs (serverFetch exObjs) 3 5 none =
      (exObjs.map toItem, ceilDiv exObjs.length 3 + 1, none, none) :=
  (openstack_C5_full_enumeration exObjs 3 5 (by decide) (by decide)
    (by decide)).1

/-- Claim C2: if any of the six required configuration keys is absent,
`New` fails with an error of kind `Invalid` and issues no network call
(empty call log, so no authentication attempt); when all six keys are
present, validation passes and the first thing `New` does is the
authentication call. -/
theorem openstack_C2_new_validation (opts : String → Option String)
    (o : NewOracle) :
    ((∃ k ∈ requiredOpts, opts k = none) →
      (New opts o).2 = [] ∧
      ∃ k ∈ requiredOpts, opts k = none ∧
        (New opts o).1 =
          .error (.e newOp .Invalid ("\"" ++ k ++ "\" option is required"))) ∧
    ((∀ k ∈ requiredOpts, (opts k).isSome) →
      (New opts o).2.head? = some .authCall) := by
  constructor
  · intro hmiss
    have hfind : (requiredOpts.find? (fun k => (opts k).isNone)).isSome := by
      rw [List.find?_isSome]
      obtain ⟨k, hk, hnone⟩ := hmiss
      exact ⟨k, hk, by simp [hnone]⟩
    obtain ⟨k, hk⟩ := Option.isSome_iff_exists.mp hfind
    have hmem : k ∈ requiredOpts := List.mem_of_find?_eq_some hk
    have hkn : opts k = none := by
      have h1 := List.find?_some hk
      simpa using h1
    refine ⟨?_, k, hmem, hkn, ?_⟩
    · simp [New, hk]
    · simp [New, hk]
  · intro hall
    have hfind : requiredOpts.find? (fun k => (opts k).isNone) = none := by
      rw [List.find?_eq_none]
      intro k hk
      have h1 := hall k hk
      simp [Option.isNone_iff_eq_none]
      exact Option.isSome_iff_ne_none.mp h1
    rcases ha : o.authenticate
        { identityEndpoint := (opts openstackAuthURL).getD ""
          username := (opts openstackUsername).getD ""
          password := (opts openstackPassword).getD ""
          tenantName := (opts openstackTenantName).getD ""
          allowReauth := true } with msg | provider
    · simp [New, hfind, ha]
    · rcases hb : o.newObjectStorageV1 provider ((opts openstackRegion).getD "")
        with msg | client <;> simp [New, hfind, ha, hb]

theorem openstack_C2_new_validation_witness :
    ((New exOptsMissing exOracle).2 = [] ∧
      ∃ k ∈ requiredOpts, exOptsMissing k = none ∧
        (New exOptsMissing exOracle).1 =
          .error (.e newOp .Invalid ("\"" ++ k ++ "\" option is required"))) ∧
    (New exOptsFull exOracle).2.head? = some .authCall :=
  ⟨(openstack_C2_new_validation exOptsMissing exOracle).1
      ⟨openstackRegion, by decide, rfl⟩,
   (openstack_C2_new_validation exOptsFull exOracle).2 (by decide)⟩

/-- Claim C3: `Download` returns the full contents on success, fails
with kind `NotExist` exactly when the SDK reports the typed 404 error,
and fails with kind `IO` on every other SDK failure; no other error
kinds are possible. -/
theorem openstack_C3_download_taxonomy (s : openstackStorage)
    (fetch : String → String → Except SDKError (List Nat)) (ref : String) :
    (∀ contents, fetch s.container ref = .ok contents →
      Download s fetch ref = .ok contents) ∧
    (∀ err, Download s fetch ref = .error err →
      ∃ msg, err = .e downloadOp .NotExist msg ∨
        err = .e downloadOp .IOError msg) ∧
    ((∃ msg, Download s fetch ref = .error (.e downloadOp .NotExist msg)) ↔
      fetch s.container ref = .error .err404) ∧
    (∀ msg, fetch s.container ref = .error (.other msg) →
      ∃ m, Download s fetch ref = .error (.e downloadOp .IOError m)) := by
  refine ⟨?_, ?_, ?_, ?_⟩
  · intro contents hc
    unfold Download
    rw [hc]
  · intro err herr
    unfold Download at herr
    rcases hf : fetch s.container ref with e | contents <;> rw [hf] at herr
    · rcases e with _ | msg
      · simp only [Except.error.injEq] at herr
        exact ⟨"object not found", Or.inl herr.symm⟩
      · simp only [Except.error.injEq] at herr
        exact ⟨_, Or.inr herr.symm⟩
    · simp at herr
  · constructor
    · rintro ⟨msg, hmsg⟩
      unfold Download at hmsg
      rcases hf : fetch s.container ref with e | contents <;> rw [hf] at hmsg
      · rcases e with _ | m
        · rfl
        · simp at hmsg
      · simp at hmsg
    · intro hf
      unfold Download
      rw [hf]
      exact ⟨"object not found", rfl⟩
  · intro msg hf
    unfold Download
    rw [hf]
    exact ⟨_, rfl⟩

theorem openstack_C3_download_taxonomy_witness :
    Download exStore (fun _ _ => .ok [7, 8]) "r" = .ok [7, 8] :=
  (openstack_C3_download_taxonomy exStore (fun _ _ => .ok [7, 8]) "r").1
    [7, 8] rfl

/-- Claim C4: when the container metadata is retrieved, `LinkBase`
returns a URL prefix exactly when the read-ACL list contains the
sentinel string as a member, returning the unsupported error
otherwise; when the metadata cannot be retrieved it fails with kind
`Internal`. -/
theorem openstack_C4_linkbase_acl (s : openstackStorage)
    (getMeta : String → Except String ContainerHeader) :
    (∀ h, getMeta s.container = .ok h →
      (((∃ u, LinkBase s getMeta = .ok u) ↔ containerPublicACL ∈ h.read) ∧
       (containerPublicACL ∈ h.read →
         LinkBase s getMeta = .ok (serviceURL s.client s.container ++ "/")) ∧
       (containerPublicACL ∉ h.read →
         LinkBase s getMeta = .error .notSupported))) ∧
    (∀ msg, getMeta s.container = .error msg →
      LinkBase s getMeta =
        .error (.e linkBaseOp .Internal ("Unable to extract header: " ++ msg))) := by
  constructor
  · intro h hok
    unfold LinkBase
    rw [hok]
    by_cases hmem : containerPublicACL ∈ h.read
    · simp [hmem]
    · simp [hmem]
  · intro msg herr
    unfold LinkBase
    rw [herr]

theorem openstack_C4_linkbase_acl_witness :
    LinkBase exStore exMetaPub =
      .ok (serviceURL exStore.client exStore.container ++ "/") :=
  ((openstack_C4_linkbase_acl exStore exMetaPub).1 { read := [".r:*"] }
    rfl).2.1 (by decide)

/-- Claim C8: `Put` and `Delete` either succeed or fail with an error
of kind `IO`; that is the only error kind either can produce, whatever
the underlying service reports. -/
theorem openstack_C8_put_delete_io_only (s : openstackStorage)
    (create : String → String → List Nat → Option String)
    (del : String → String → Option String)
    (ref : String) (contents : List Nat) :
    (Put s create ref contents = none ∨
      ∃ msg, Put s create ref contents = some (.e putOp .IOError msg)) ∧
    (Delete s del ref = none ∨
      ∃ msg, Delete s del ref = some (.e deleteOp .IOError msg)) := by
  constructor
  · unfold Put
    rcases create s.container ref contents with _ | m
    · exact Or.inl rfl
    · exact Or.inr ⟨_, rfl⟩
  · unfold Delete
    rcases del s.container ref with _ | m
    · exact Or.inl rfl
    · exact Or.inr ⟨_, rfl⟩

/-- Claim C9: no operation modifies the adapter's state: the
state-threaded forms of the five operations return the receiver with
its client handle and container name unchanged, whether the operation
succeeds or fails. -/
theorem openstack_C9_state_unchanged (s : openstackStorage)
    (create : String → String → List Nat → Option String)
    (dl : String → String → Except SDKError (List Nat))
    (del : String → String → Option String)
    (getMeta : String → Except String ContainerHeader)
    (pfetch : SwiftURL → FetchOutcome) (url : Option SwiftURL)
    (ref : String) (contents : List Nat) (fuel : Nat) :
    (PutS s create ref contents).2 = s ∧
    (DownloadS s dl ref).2 = s ∧
    (DeleteS s del ref).2 = s ∧
    (LinkBaseS s getMeta).2 = s ∧
    (ListS s pfetch url fuel).2 = s ∧
    ((PutS s create ref contents).2.client = s.client ∧
      (PutS s create ref contents).2.container = s.container) :=
  ⟨rfl, rfl, rfl, rfl, rfl, rfl, rfl⟩
